import Mathlib

/-!
Verification of the dropboxfs core (`src/dropboxfs/dbfs.py`) against its
specification. Paths and other Python strings are modelled as lists of
characters, timestamps as natural numbers, and the remote backend as explicit
data (page lists, metadata oracles) passed to each function.
-/

namespace Dbfs

/-- Python strings (paths, names, ids) modelled as lists of characters. -/
abbrev Str := List Char

/-- The root path literal `'/'`. -/
def rootPath : Str := ['/']

/-- `dropbox.files.FolderMetadata`: the fields `dbfs.py` reads. -/
structure FolderMeta where
  name : Str
  path_lower : Str
  id : Str
  deriving DecidableEq

/-- `dropbox.files.FileMetadata`: the fields `dbfs.py` reads. Timestamps are
naturals; `server_modified` is the field the snapshot boundary check reads and
`client_modified` the one `_md_to_stat` reports. -/
structure FileMeta where
  name : Str
  path_lower : Str
  id : Str
  size : Nat
  client_modified : Nat
  server_modified : Nat
  deriving DecidableEq

/-- A non-tombstone remote entry descriptor (folder or file metadata). -/
inductive Md where
  | folder (f : FolderMeta)
  | file (f : FileMeta)
  deriving DecidableEq

/-- `dropbox.files.DeletedMetadata`: a tombstone. It carries a name and a
lowered path but no `size` or modification times. -/
structure DelMeta where
  name : Str
  path_lower : Str
  deriving DecidableEq

/-- An entry as returned by `files_list_folder` / `files_list_folder_continue`:
either live metadata or a tombstone. -/
inductive Entry where
  | md (m : Md)
  | deleted (d : DelMeta)
  deriving DecidableEq

def Md.name : Md → Str
  | .folder f => f.name
  | .file f => f.name

def Md.path_lower : Md → Str
  | .folder f => f.path_lower
  | .file f => f.path_lower

def Md.id : Md → Str
  | .folder f => f.id
  | .file f => f.id

def entryPathLower : Entry → Str
  | .md m => m.path_lower
  | .deleted d => d.path_lower

def entryName : Entry → Str
  | .md m => m.name
  | .deleted d => d.name

/-- The stat record built by `_md_to_stat` (namedtuple
`Stat(name, type, size, mtime)`). -/
structure Stat where
  name : Str
  type : String
  size : Nat
  mtime : Nat
  deriving DecidableEq

/-- `_md_to_stat(md)` (dbfs.py lines 33-41): folders report type
`'directory'`, size 0 and `datetime.datetime.now()` as mtime (passed here as
the `now` argument); files report their size and `client_modified`. Defined on
`Md` because tombstones are never passed in (a `DeletedMetadata` has no `size`
attribute, so the Python function is undefined on them). -/
def _md_to_stat (md : Md) (now : Nat) : Stat :=
  { name := md.name
    type := match md with | .folder _ => "directory" | .file _ => "file"
    size := match md with | .folder _ => 0 | .file f => f.size
    mtime := match md with | .file f => f.client_modified | .folder _ => now }

/-- `dropbox.exceptions.ApiError` as consumed by `_get_md_inner`: only
`e.error.is_path()` is inspected. -/
structure ApiErr where
  is_path : Bool
  deriving DecidableEq

/-- Errors surfaced by the facade's synchronous path. -/
inductive OSErr where
  | ENOENT
  | EINVAL
  | apiErr (e : ApiErr)
  deriving DecidableEq

/-- The abstract `files_get_metadata` backend: path to metadata or `ApiError`. -/
abbrev GetMd := Str → Except ApiErr Md

/-- `FileSystem._get_md_inner` (lines 226-238): the root path is answered with
a synthesized `FolderMetadata(name="/", path_lower="/")` before any backend
call; otherwise `files_get_metadata` is called, and an `ApiError` whose error
`is_path()` becomes `ENOENT` while any other `ApiError` is re-raised. The
synthesized root folder carries no id (the id is never read for the root). -/
def FileSystem._get_md_inner (backend : GetMd) (path : Str) : Except OSErr Md :=
  if path = rootPath then .ok (.folder ⟨rootPath, rootPath, []⟩)
  else
    match backend path with
    | .ok md => .ok md
    | .error e => if e.is_path then .error .ENOENT else .error (.apiErr e)

/-- `FileSystem._get_md` (lines 240-243): `_md_to_stat` of `_get_md_inner`;
`now` is the current time `_md_to_stat` would assign to folders. -/
def FileSystem._get_md (backend : GetMd) (now : Nat) (path : Str) : Except OSErr Stat :=
  (FileSystem._get_md_inner backend path).map (fun md => _md_to_stat md now)

/-- `FileSystem.stat` (lines 257-258). -/
def FileSystem.stat (backend : GetMd) (now : Nat) (path : Str) : Except OSErr Stat :=
  FileSystem._get_md backend now path

/-- The `_File` handle state (lines 95-100): lowered path, remote id, and the
current read offset (initially 0). -/
structure _File where
  path_lower : Str
  id : Str
  offset : Nat
  deriving DecidableEq

/-- The `_Directory` handle state (lines 43-48): lowered path and remote id. -/
structure _Directory where
  path : Str
  id : Str
  deriving DecidableEq

/-- `FileSystem.open` (lines 245-248): builds a `_File` on the metadata's
lowered path, with id `"/"` for the root and `md.id` otherwise. Named
`open'` because `open` is reserved in Lean. -/
def FileSystem.open' (backend : GetMd) (path : Str) : Except OSErr _File :=
  (FileSystem._get_md_inner backend path).map fun md =>
    ⟨md.path_lower, if md.path_lower = rootPath then rootPath else md.id, 0⟩

/-- `FileSystem.open_directory` (lines 250-252): builds a `_Directory` the
same way. -/
def FileSystem.open_directory (backend : GetMd) (path : Str) : Except OSErr _Directory :=
  (FileSystem._get_md_inner backend path).map fun md =>
    ⟨md.path_lower, if md.path_lower = rootPath then rootPath else md.id⟩

/-- `dropbox.rest.ErrorResponse` as consumed by `_File.pread`: only
`e.error_msg` is inspected. -/
structure ErrorResponse where
  error_msg : String
  deriving DecidableEq

/-- Byte strings returned by the byte-range backend. -/
abbrev Bytes := List Nat

/-- Errors raised by `_File.pread`. -/
inductive PreadErr where
  | eisdir
  | errorResponse (e : ErrorResponse)
  deriving DecidableEq

/-- The abstract `get_file` backend of the v1 client: lowered path, start
offset, optional length. -/
abbrev GetFile := Str → Nat → Option Nat → Except ErrorResponse Bytes

/-- `_File.pread` (lines 102-110): fetch the byte range
(`length = size if size >= 0 else None`); an `ErrorResponse` whose message is
`"Path is a directory"` becomes `OSError(EISDIR)`, any other `ErrorResponse`
is re-raised unchanged. -/
def _File.pread (get_file : GetFile) (f : _File) (offset : Nat) (size : Int) :
    Except PreadErr Bytes :=
  match get_file f.path_lower offset (if 0 ≤ size then some size.toNat else none) with
  | .ok b => .ok b
  | .error e =>
    if e.error_msg = "Path is a directory" then .error .eisdir
    else .error (.errorResponse e)

/-- Python runtime errors relevant to the embedding. -/
inductive PyErr where
  | nameError (n : String)
  deriving DecidableEq

/-- `_File.read` (lines 112-115) from the source:
```
toret = self.pread(offset, size)
self._offset += toret
return toret
```
The name `offset` is bound neither in the method nor as a module global, so
the first statement raises `NameError: name 'offset' is not defined` before
`pread` is ever entered (and even with `self._offset` the second statement
would add a `bytes` value to the integer offset). The faithful embedding of
the method therefore always raises. -/
def _File.read (get_file : GetFile) (f : _File) (size : Int) :
    Except PyErr (Bytes × _File) :=
  .error (.nameError "offset")

/-- `_File.readall` (lines 117-118): `self.read()`, i.e. `read` with the
default size `-1`. -/
def _File.readall (get_file : GetFile) (f : _File) : Except PyErr (Bytes × _File) :=
  _File.read get_file f (-1)

/-- Concrete `get_file` backend used by the C8 witness: every byte-range
request reports that the path is a directory. -/
def gfDir : GetFile := fun _ _ _ => .error ⟨"Path is a directory"⟩

/-- Concrete file handle used by the C8 witness. -/
def fh8 : _File := ⟨['/', 'd'], ['i', 'd'], 0⟩

/-- A watcher-supplied callback. The callback itself is opaque watcher code;
the embedding records an identity and its observable behaviour: whether it
raises when invoked with the `'reset'` signal and whether it raises when
invoked with a change list. -/
structure Callback where
  id : Nat
  failsOnReset : Bool
  failsOnChanges : Bool
  deriving DecidableEq

/-- One registration tuple `(cb, dir_handle, completion_filter, watch_tree)`
as appended to `dbfs._watches` by `create_watch` (line 270) and consumed by
`delta_thread` (line 156). The `dir_handle` is a `_File` — that is the type
`create_watch` demands — and `delta_thread` reads its `_path_lower`. -/
structure WatchReg where
  cb : Callback
  dir_handle : _File
  completion_filter : Nat
  watch_tree : Bool
  deriving DecidableEq

/-- `prefix_ndirpath` (line 163): the scope path followed by `"/"` unless the
scope is the root, in which case the separator is already there. -/
def pfxOf (ndirpath : Str) : Str :=
  ndirpath ++ (if ndirpath = rootPath then [] else ['/'])

/-- The routing test of the `for entry in res.entries` loop (lines 165-171):
the entry is kept iff its lowered path starts with `prefix_ndirpath` and,
when `watch_tree` is false, the remainder after the prefix contains no
further `'/'`. -/
def entryMatches (w : WatchReg) (e : Entry) : Bool :=
  (pfxOf w.dir_handle.path_lower).isPrefixOf (entryPathLower e) &&
    (w.watch_tree ||
      !((entryPathLower e).drop (pfxOf w.dir_handle.path_lower).length).contains '/')

/-- `Change = namedtuple('Change', ['action', 'filename'])` (line 120). -/
structure Change where
  action : String
  filename : Str
  deriving DecidableEq

/-- The action classification (lines 175-177): `"removed"` for tombstones,
`"modified"` otherwise. -/
def entryAction : Entry → String
  | .deleted _ => "removed"
  | .md _ => "modified"

/-- `to_sub` (lines 161-178): the matched entries of the batch, in feed order,
as `Change(action, entry.name)` records. -/
def to_sub (w : WatchReg) (entries : List Entry) : List Change :=
  (entries.filter (entryMatches w)).map (fun e => ⟨entryAction e, entryName e⟩)

/-- An observable callback invocation of one delivery cycle: `cb('reset')`,
`cb(to_sub)`, or the catch-and-log of a `cb(to_sub)` failure
(`log.exception("failure during watch callback")`). -/
inductive Event where
  | resetInv (id : Nat)
  | changesInv (id : Nat) (cs : List Change)
  | caughtCb (id : Nat)
  deriving DecidableEq

def Event.watchId : Event → Nat
  | .resetInv i => i
  | .changesInv i _ => i
  | .caughtCb i => i

def Event.isReset : Event → Bool
  | .resetInv _ => true
  | _ => false

def Event.isChanges : Event → Bool
  | .changesInv _ _ => true
  | _ => false

/-- The sub-trace of invocations delivered to the callback with id `i`. -/
def eventsFor (i : Nat) (tr : List Event) : List Event :=
  tr.filter (fun e => e.watchId == i)

/-- The body of the per-registration loop for one watch that does not crash
the thread (lines 157-184): `cb('reset')` first when `needs_reset`, then the
`to_sub` computation, then — only if `to_sub` is non-empty — `cb(to_sub)`
inside `try/except`, a failure of which is caught and logged. -/
def watchBlock (entries : List Entry) (needs_reset : Bool) (w : WatchReg) :
    List Event :=
  (if needs_reset then [Event.resetInv w.cb.id] else []) ++
    (if to_sub w entries = [] then []
     else if w.cb.failsOnChanges then
       [Event.changesInv w.cb.id (to_sub w entries), Event.caughtCb w.cb.id]
     else [Event.changesInv w.cb.id (to_sub w entries)])

/-- The `for (cb, dir_handle, completion_filter, watch_tree) in watches` loop
of `delta_thread` (lines 156-184). `cb('reset')` (line 158) is not inside any
`try` block: if it raises, the exception escapes the loop and kills the
thread. Returns the invocation trace and whether such an escape happened. -/
def deliverLoop (entries : List Entry) (needs_reset : Bool) :
    List WatchReg → List Event × Bool
  | [] => ([], false)
  | w :: ws =>
    if needs_reset && w.cb.failsOnReset then ([Event.resetInv w.cb.id], true)
    else (watchBlock entries needs_reset w ++ (deliverLoop entries needs_reset ws).1,
          (deliverLoop entries needs_reset ws).2)

/-- One successful-fetch delivery cycle of `delta_thread` (lines 153-186): the
registry snapshot is iterated, then `needs_reset = False` runs — but only if
no exception escaped the loop. Returns the trace, the escaped flag, and the
value of `needs_reset` after the cycle. -/
def deliverCycle (watches : List WatchReg) (entries : List Entry)
    (needs_reset : Bool) : List Event × Bool × Bool :=
  ((deliverLoop entries needs_reset watches).1,
   (deliverLoop entries needs_reset watches).2,
   if (deliverLoop entries needs_reset watches).2 then needs_reset else false)

/-- The scope-membership predicate exactly as the C2 claim words it: the scope
covers the scope directory itself and, when `recursive`, all descendants; when
not recursive, itself and its direct children (no further separator after
stripping the scope prefix). Stated from the claim, for comparison with
`entryMatches`, which is translated from the code. -/
def inScopeSpec (scope : Str) (recursive : Bool) (path : Str) : Bool :=
  path = scope ||
    ((scope ++ ['/']).isPrefixOf path &&
      (recursive || !((path.drop (scope.length + 1)).contains '/')))

/-- The handle argument of `create_watch`: in this codebase it is either a
`_File` (from `FileSystem.open`) or a `_Directory` (from
`FileSystem.open_directory`). -/
inductive Handle where
  | file (f : _File)
  | dir (d : _Directory)
  deriving DecidableEq

/-- `FileSystem.create_watch` (lines 263-279): raises `OSError(EINVAL)` unless
`dir_handle` is a `_File` instance; otherwise appends the registration tuple
under the registry lock and returns (the registry after the append; the
`stop` capability is `watchStop` on the same tag). On error the registry is
unchanged and no registration is added. -/
def FileSystem.create_watch (watches : List WatchReg) (cb : Callback)
    (dir_handle : Handle) (completion_filter : Nat) (watch_tree : Bool) :
    Except OSErr (List WatchReg) :=
  match dir_handle with
  | .dir _ => .error .EINVAL
  | .file f => .ok (watches ++ [⟨cb, f, completion_filter, watch_tree⟩])

/-- The `stop` capability returned by `create_watch` (lines 275-277):
`self._watches.remove(tag)` removes the first occurrence of the tag. -/
def watchStop (watches : List WatchReg) (tag : WatchReg) : List WatchReg :=
  watches.erase tag

/-- The classes of exception the poller's fetch (lines 140-142) can raise:
`dropbox.files.ListFolderContinueError` (the invalidated-cursor case tested on
line 144) or anything else. -/
inductive FetchErr where
  | listFolderContinueError
  | other (n : Nat)
  deriving DecidableEq

/-- The `except` handler of `delta_thread` (lines 143-151): on
`ListFolderContinueError` the cursor is dropped and `needs_reset` set; any
other exception leaves both untouched; then `log.exception(...)` and
`time.sleep(60)` run — but the module never imports `time`, so the handler
itself raises `NameError: name 'time' is not defined`, which escapes the
`except` clause and terminates the thread instead of reaching `continue`.
Returns the state as updated before the raise, and the escaping error. -/
def delta_thread_on_error (e : FetchErr) (cursor : Option Nat)
    (needs_reset : Bool) : (Option Nat × Bool) × Except PyErr Unit :=
  ((match e with
    | .listFolderContinueError => (none, true)
    | .other _ => (cursor, needs_reset)),
   .error (.nameError "time"))

/-- The poller's error handling as the C7 claim and the spec word it: on a
feed-invalidated error drop the cursor and set the reset flag, on any other
error keep both, log, back off, and in both cases continue the loop — the
error is never propagated out of the poller. Stated from the claim, for
comparison with `delta_thread_on_error`, which is translated from the code. -/
def pollerOnErrorSpec (e : FetchErr) (cursor : Option Nat)
    (needs_reset : Bool) : (Option Nat × Bool) × Except PyErr Unit :=
  ((match e with
    | .listFolderContinueError => (none, true)
    | .other _ => (cursor, needs_reset)),
   .ok ())

/-- The path `/a/b` used by the C2 counterexample and witness. -/
def abPath : Str := ['/', 'a', '/', 'b']

/-- A `_File` handle scoped at `/a/b`. -/
def dhAB : _File := ⟨abPath, ['i', 'd'], 0⟩

/-- A non-recursive watch scoped at `/a/b`. -/
def wAB : WatchReg := ⟨⟨1, false, false⟩, dhAB, 0, false⟩

/-- A recursive watch scoped at `/a/b`. -/
def wABrec : WatchReg := ⟨⟨2, false, false⟩, dhAB, 0, true⟩

/-- A change entry whose lowered path is the scope directory `/a/b` itself. -/
def entryAB : Entry := .md (.file ⟨['b'], abPath, ['i'], 0, 0, 0⟩)

/-- A change entry at `/a/b/c`, a direct child of the scope. -/
def entryABc : Entry :=
  .md (.file ⟨['c'], abPath ++ ['/', 'c'], ['j'], 0, 0, 0⟩)

/-- A metadata backend that fails every call (used to show the root path never
consults the backend, and by the C5 counterexample). -/
def failingMd : GetMd := fun _ => .error ⟨true⟩

/-- A callback for the C5 counterexample. -/
def cb5 : Callback := ⟨5, false, false⟩

/-- The `_Directory` handle `open_directory` returns for the root. -/
def dh5 : _Directory := ⟨rootPath, rootPath⟩

/-- Two well-behaved watches with distinct callbacks, scoped at `/a/b`, used
by the C3 witness. -/
def w31 : WatchReg := ⟨⟨31, false, false⟩, dhAB, 0, false⟩

def w32 : WatchReg := ⟨⟨32, false, false⟩, dhAB, 0, true⟩

/-- A watch whose callback raises when invoked with the reset signal (C4
counterexample). -/
def wBad : WatchReg := ⟨⟨41, true, false⟩, dhAB, 0, true⟩

/-- A well-behaved watch registered after `wBad`, with a matching change. -/
def w42 : WatchReg := ⟨⟨42, false, false⟩, dhAB, 0, true⟩

/-- A watch whose callback raises when invoked with a change list (C4
witness). -/
def wCatch : WatchReg := ⟨⟨43, false, true⟩, dhAB, 0, true⟩

/-- Claim C9: the Metadata Translator maps a folder descriptor to a directory
record with size 0 and the implementation-assigned `now` as mtime, and a file
descriptor to a file record with the descriptor's size and client-modified
time, keeping the descriptor's name; it is total on non-tombstone inputs. -/
theorem md_translator_correct :
    (∀ (f : FolderMeta) (now : Nat),
        _md_to_stat (.folder f) now = ⟨f.name, "directory", 0, now⟩) ∧
    (∀ (f : FileMeta) (now : Nat),
        _md_to_stat (.file f) now = ⟨f.name, "file", f.size, f.client_modified⟩) :=
  ⟨fun _ _ => rfl, fun _ _ => rfl⟩

/-- Claim C10: for the root path `/`, `stat`, `open` and `open_directory`
succeed for every metadata backend whatsoever (in particular for one that
fails on every call, so no backend metadata call can be involved), the root
never fails with `NotFound`, and `stat "/"` reports a directory of size 0. -/
theorem root_never_fails (backend : GetMd) (now : Nat) :
    FileSystem.stat backend now rootPath = .ok ⟨rootPath, "directory", 0, now⟩ ∧
    FileSystem.open' backend rootPath = .ok ⟨rootPath, rootPath, 0⟩ ∧
    FileSystem.open_directory backend rootPath = .ok ⟨rootPath, rootPath⟩ :=
  ⟨rfl, rfl, rfl⟩

/-- Claim C8: when the byte-range backend reports an `ErrorResponse` for the
requested range — which per the backend contract is what happens on a
directory path, with message `"Path is a directory"` — `pread` returns no
bytes: it fails with `EISDIR` exactly when the message is
`"Path is a directory"`, and re-raises the `ErrorResponse` unchanged
otherwise. -/
theorem pread_is_directory (get_file : GetFile) (f : _File) (offset : Nat)
    (size : Int) (e : ErrorResponse)
    (hresp : get_file f.path_lower offset
        (if 0 ≤ size then some size.toNat else none) = .error e) :
    _File.pread get_file f offset size =
      (if e.error_msg = "Path is a directory" then .error .eisdir
       else .error (.errorResponse e)) := by
  unfold _File.pread
  rw [hresp]

/-- Witness for C8: a backend that reports `"Path is a directory"` makes
`pread` fail with `EISDIR`. -/
theorem pread_is_directory_witness :
    _File.pread gfDir fh8 0 (-1) = .error .eisdir := by
  have h := pread_is_directory gfDir fh8 0 (-1) ⟨"Path is a directory"⟩ rfl
  simpa using h

/-- Claim C6 (code bug): `_File.read` never behaves as `pread` at the current
offset — it raises `NameError` on every call, for every backend, handle and
size, because the source refers to an unbound name `offset`; `readall`
inherits the same failure. -/
theorem read_raises_nameError :
    (∀ (get_file : GetFile) (f : _File) (size : Int),
        _File.read get_file f size = .error (.nameError "offset")) ∧
    (∀ (get_file : GetFile) (f : _File),
        _File.readall get_file f = .error (.nameError "offset")) :=
  ⟨fun _ _ _ => rfl, fun _ _ => rfl⟩

theorem watchBlock_ids (entries : List Entry) (nr : Bool) (w : WatchReg) :
    ∀ e ∈ watchBlock entries nr w, e.watchId = w.cb.id := by
  intro e he
  unfold watchBlock at he
  rcases List.mem_append.mp he with h | h
  · cases nr with
    | false => simp at h
    | true =>
      simp at h
      subst h
      rfl
  · by_cases hts : to_sub w entries = []
    · simp [hts] at h
    · by_cases hfc : w.cb.failsOnChanges = true
      · simp [hts, hfc] at h
        rcases h with h | h <;> subst h <;> rfl
      · simp [hts, hfc] at h
        subst h
        rfl

theorem deliverLoop_cons (entries : List Entry) (nr : Bool) (w : WatchReg)
    (ws : List WatchReg) (h : (nr && w.cb.failsOnReset) = false) :
    deliverLoop entries nr (w :: ws) =
      (watchBlock entries nr w ++ (deliverLoop entries nr ws).1,
       (deliverLoop entries nr ws).2) := by
  simp [deliverLoop, h]

theorem deliverLoop_ids (entries : List Entry) (nr : Bool) (ws : List WatchReg) :
    ∀ e ∈ (deliverLoop entries nr ws).1,
      e.watchId ∈ ws.map (fun w => w.cb.id) := by
  induction ws with
  | nil => intro e he; simp [deliverLoop] at he
  | cons w ws ih =>
    intro e he
    by_cases hcr : (nr && w.cb.failsOnReset) = true
    · simp only [deliverLoop, hcr, if_true] at he
      simp at he
      subst he
      simp [Event.watchId]
    · rw [deliverLoop_cons entries nr w ws (Bool.not_eq_true _ ▸ hcr)] at he
      rcases List.mem_append.mp he with h | h
      · rw [List.map_cons, List.mem_cons]
        exact Or.inl (watchBlock_ids entries nr w e h)
      · rw [List.map_cons, List.mem_cons]
        exact Or.inr (ih e h)

theorem deliverLoop_no_crash (entries : List Entry) (nr : Bool) (ws : List WatchReg)
    (hok : ∀ w ∈ ws, nr = true → w.cb.failsOnReset = false) :
    (deliverLoop entries nr ws).2 = false := by
  induction ws with
  | nil => rfl
  | cons w ws ih =>
    have hcr : (nr && w.cb.failsOnReset) = false := by
      cases hnr : nr
      · simp
      · simp only [Bool.true_and]
        exact hok w (List.mem_cons_self w ws) hnr
    rw [deliverLoop_cons entries nr w ws hcr]
    exact ih (fun w' hw' hnr => hok w' (List.mem_cons_of_mem w hw') hnr)

theorem eventsFor_deliverLoop (entries : List Entry) (nr : Bool) (ws : List WatchReg)
    (hok : ∀ w ∈ ws, nr = true → w.cb.failsOnReset = false)
    (hids : (ws.map (fun w => w.cb.id)).Nodup) :
    ∀ w ∈ ws,
      eventsFor w.cb.id (deliverLoop entries nr ws).1 = watchBlock entries nr w := by
  induction ws with
  | nil => intro w hw; simp at hw
  | cons w0 ws ih =>
    intro w hw
    have hcr : (nr && w0.cb.failsOnReset) = false := by
      cases hnr : nr
      · simp
      · simp only [Bool.true_and]
        exact hok w0 (List.mem_cons_self w0 ws) hnr
    rw [deliverLoop_cons entries nr w0 ws hcr]
    unfold eventsFor
    rw [List.filter_append]
    rcases List.mem_cons.mp hw with h | h
    · subst h
      have h1 : (watchBlock entries nr w).filter (fun e => e.watchId == w.cb.id) =
          watchBlock entries nr w := by
        apply List.filter_eq_self.mpr
        intro e he
        rw [watchBlock_ids entries nr w e he]
        simp
      have hnotin : w.cb.id ∉ ws.map (fun w' => w'.cb.id) :=
        (List.nodup_cons.mp hids).1
      have h2 : ((deliverLoop entries nr ws).1).filter
          (fun e => e.watchId == w.cb.id) = [] := by
        apply List.filter_eq_nil_iff.mpr
        intro e he hbeq
        have hmem := deliverLoop_ids entries nr ws e he
        rw [beq_iff_eq] at hbeq
        rw [hbeq] at hmem
        exact hnotin hmem
      rw [h1, h2, List.append_nil]
    · have hnotin : w0.cb.id ∉ ws.map (fun w' => w'.cb.id) :=
        (List.nodup_cons.mp hids).1
      have hne : w.cb.id ≠ w0.cb.id := by
        intro heq
        apply hnotin
        rw [← heq]
        exact List.mem_map.mpr ⟨w, h, rfl⟩
      have h1 : (watchBlock entries nr w0).filter
          (fun e => e.watchId == w.cb.id) = [] := by
        apply List.filter_eq_nil_iff.mpr
        intro e he hbeq
        rw [watchBlock_ids entries nr w0 e he, beq_iff_eq] at hbeq
        exact hne hbeq.symm
      rw [h1, List.nil_append]
      exact ih (fun w' hw' hnr => hok w' (List.mem_cons_of_mem w0 hw') hnr)
        (List.nodup_cons.mp hids).2 w h

theorem watchBlock_body_no_reset (entries : List Entry) (w : WatchReg) :
    ∀ e ∈ (if to_sub w entries = [] then ([] : List Event)
           else if w.cb.failsOnChanges then
             [Event.changesInv w.cb.id (to_sub w entries), Event.caughtCb w.cb.id]
           else [Event.changesInv w.cb.id (to_sub w entries)]),
      e.isReset = false := by
  intro e he
  by_cases hts : to_sub w entries = []
  · simp [hts] at he
  · by_cases hfc : w.cb.failsOnChanges = true
    · simp [hts, hfc] at he
      rcases he with h | h <;> subst h <;> rfl
    · simp [hts, hfc] at he
      subst he
      rfl

theorem watchBlock_true (entries : List Entry) (w : WatchReg) :
    ∃ evs, watchBlock entries true w = Event.resetInv w.cb.id :: evs ∧
      ∀ e ∈ evs, e.isReset = false :=
  ⟨_, rfl, watchBlock_body_no_reset entries w⟩

theorem watchBlock_false_no_reset (entries : List Entry) (w : WatchReg) :
    ∀ e ∈ watchBlock entries false w, e.isReset = false :=
  fun e he => watchBlock_body_no_reset entries w e he

theorem deliverLoop_no_reset (entries : List Entry) (ws : List WatchReg) :
    ∀ e ∈ (deliverLoop entries false ws).1, e.isReset = false := by
  induction ws with
  | nil => intro e he; simp [deliverLoop] at he
  | cons w ws ih =>
    intro e he
    rw [deliverLoop_cons entries false w ws (by simp)] at he
    rcases List.mem_append.mp he with h | h
    · exact watchBlock_false_no_reset entries w e h
    · exact ih e h

theorem watchBlock_countP_changes (entries : List Entry) (nr : Bool) (w : WatchReg) :
    (watchBlock entries nr w).countP Event.isChanges =
      if to_sub w entries = [] then 0 else 1 := by
  unfold watchBlock
  by_cases hts : to_sub w entries = [] <;>
    by_cases hfc : w.cb.failsOnChanges = true <;>
      cases nr <;>
        simp [hts, hfc, List.countP_append, List.countP_cons, Event.isChanges]

theorem watchBlock_caught (entries : List Entry) (nr : Bool) (w : WatchReg)
    (hfc : w.cb.failsOnChanges = true) (hts : to_sub w entries ≠ []) :
    Event.caughtCb w.cb.id ∈ watchBlock entries nr w := by
  unfold watchBlock
  rw [List.mem_append]
  right
  simp [hts, hfc]

/-- C2 counterexample: the spec-worded scope predicate covers the scope
directory `/a/b` itself (both recursive and not), but the delta thread's
prefix test routes a change at `/a/b` to neither the non-recursive nor the
recursive watch scoped there. -/
theorem watch_scope_counterexample :
    inScopeSpec abPath false abPath = true ∧
    inScopeSpec abPath true abPath = true ∧
    entryMatches wAB entryAB = false ∧
    entryMatches wABrec entryAB = false := by decide

/-- Claim C2 as amended: for every watch scoped anywhere but the root, a
change is routed iff its lowered path is a strict descendant path
`scope ++ "/" ++ rest`, with `rest` free of further separators unless the
watch is recursive; the scope directory itself is never routed. -/
theorem watch_scope_characterization (w : WatchReg) (e : Entry)
    (hroot : w.dir_handle.path_lower ≠ rootPath) :
    entryMatches w e = true ↔
      ∃ rest : Str, entryPathLower e = w.dir_handle.path_lower ++ '/' :: rest ∧
        (w.watch_tree = true ∨ rest.contains '/' = false) := by
  unfold entryMatches pfxOf
  rw [if_neg hroot]
  constructor
  · intro h
    rw [Bool.and_eq_true] at h
    obtain ⟨h1, h2⟩ := h
    rw [List.isPrefixOf_iff_prefix] at h1
    obtain ⟨rest, hrest⟩ := h1
    refine ⟨rest, ?_, ?_⟩
    · rw [← hrest, List.append_assoc]
      rfl
    · rw [Bool.or_eq_true] at h2
      rcases h2 with ht | hc
      · exact Or.inl ht
      · right
        rw [Bool.not_eq_true'] at hc
        rw [← hrest, List.drop_left] at hc
        exact hc
  · rintro ⟨rest, hpath, hor⟩
    have hsplit : w.dir_handle.path_lower ++ '/' :: rest =
        (w.dir_handle.path_lower ++ ['/']) ++ rest := by simp
    rw [Bool.and_eq_true]
    constructor
    · rw [List.isPrefixOf_iff_prefix, hpath, hsplit]
      exact ⟨rest, rfl⟩
    · rcases hor with ht | hc
      · rw [ht]
        rfl
      · rw [hpath, hsplit, List.drop_left, hc]
        simp

/-- Witness for amended C2: a change at the direct child `/a/b/c` is routed to
the non-recursive watch scoped at `/a/b`. -/
theorem watch_scope_characterization_witness :
    entryMatches wAB entryABc = true :=
  (watch_scope_characterization wAB entryABc (by decide)).mpr
    ⟨['c'], by decide, Or.inr (by decide)⟩

/-- C3 counterexample: with the reset flag set, a registration whose callback
raises on its reset invocation aborts the delivery loop, so the original claim
fails: the watch `w42`, registered at delivery time, receives zero reset
notifications in the episode, and the reset flag is still set after the cycle
— it is not cleared, because `needs_reset = False` (dbfs.py:186) is never
reached. -/
theorem reset_delivery_counterexample :
    ((eventsFor w42.cb.id (deliverCycle [wBad, w42] [entryABc] true).1).countP
        Event.isReset = 0) ∧
    (deliverCycle [wBad, w42] [entryABc] true).2.2 = true := by decide

/-- Claim C3 as amended: in a delivery cycle that begins with the reset flag
set, provided no registered callback raises on its reset invocation (an
uncaught `cb('reset')` failure aborts the loop) and the callbacks are
distinct, the loop completes, the reset flag is cleared after all
registrations are processed, every registered watch receives exactly one reset
invocation and it precedes every change invocation delivered to that watch,
and a cycle whose flag is clear delivers no reset to anyone. -/
theorem reset_once_before_changes (watches : List WatchReg) (entries : List Entry)
    (hok : ∀ w ∈ watches, w.cb.failsOnReset = false)
    (hids : (watches.map (fun w => w.cb.id)).Nodup) :
    (deliverCycle watches entries true).2.1 = false ∧
    (deliverCycle watches entries true).2.2 = false ∧
    (∀ w ∈ watches, ∃ evs,
        eventsFor w.cb.id (deliverCycle watches entries true).1 =
          Event.resetInv w.cb.id :: evs ∧ ∀ e ∈ evs, e.isReset = false) ∧
    (∀ (ws : List WatchReg) (es : List Entry),
        ∀ e ∈ (deliverCycle ws es false).1, e.isReset = false) := by
  have hok' : ∀ w ∈ watches, true = true → w.cb.failsOnReset = false :=
    fun w hw _ => hok w hw
  have hnc := deliverLoop_no_crash entries true watches hok'
  refine ⟨hnc, ?_, ?_, ?_⟩
  · show (if (deliverLoop entries true watches).2 then true else false) = false
    rw [hnc]
    rfl
  · intro w hw
    have hev := eventsFor_deliverLoop entries true watches hok' hids w hw
    rcases watchBlock_true entries w with ⟨evs, hb, hnr⟩
    exact ⟨evs, by rw [show (deliverCycle watches entries true).1 =
      (deliverLoop entries true watches).1 from rfl, hev, hb], hnr⟩
  · intro ws es e he
    exact deliverLoop_no_reset es ws e he

/-- Witness for C3 at two concrete watches and one concrete change batch. -/
theorem reset_once_before_changes_witness :
    (deliverCycle [w31, w32] [entryABc] true).2.1 = false ∧
    (deliverCycle [w31, w32] [entryABc] true).2.2 = false ∧
    (∀ w ∈ [w31, w32], ∃ evs,
        eventsFor w.cb.id (deliverCycle [w31, w32] [entryABc] true).1 =
          Event.resetInv w.cb.id :: evs ∧ ∀ e ∈ evs, e.isReset = false) ∧
    (∀ (ws : List WatchReg) (es : List Entry),
        ∀ e ∈ (deliverCycle ws es false).1, e.isReset = false) :=
  reset_once_before_changes [w31, w32] [entryABc] (by decide) (by decide)

/-- C4 counterexample: with the reset flag set, a registration whose callback
raises on the reset invocation terminates the whole delivery loop: the escaped
flag is set and the remaining registration `w42` — which has a matching change
in the batch — receives no invocation at all. -/
theorem callback_failure_counterexample :
    (deliverCycle [wBad, w42] [entryABc] true).2.1 = true ∧
    eventsFor w42.cb.id (deliverCycle [wBad, w42] [entryABc] true).1 = [] ∧
    to_sub w42 [entryABc] ≠ [] := by decide

/-- Claim C4 as amended: when no callback raises on a reset invocation (in
particular whenever the reset flag is clear), a callback raising on its
change-list invocation is caught and logged, the loop completes (the poller
does not terminate), every registration with matching changes is invoked with
them exactly once (no retry), and delivery proceeds to all remaining
registrations. -/
theorem changelist_failure_isolated (watches : List WatchReg) (entries : List Entry)
    (nr : Bool)
    (hok : ∀ w ∈ watches, nr = true → w.cb.failsOnReset = false)
    (hids : (watches.map (fun w => w.cb.id)).Nodup) :
    (deliverCycle watches entries nr).2.1 = false ∧
    ∀ w ∈ watches,
      ((eventsFor w.cb.id (deliverCycle watches entries nr).1).countP
          Event.isChanges = if to_sub w entries = [] then 0 else 1) ∧
      (w.cb.failsOnChanges = true → to_sub w entries ≠ [] →
        Event.caughtCb w.cb.id ∈ (deliverCycle watches entries nr).1) := by
  refine ⟨deliverLoop_no_crash entries nr watches hok, ?_⟩
  intro w hw
  have hev := eventsFor_deliverLoop entries nr watches hok hids w hw
  constructor
  · rw [show (deliverCycle watches entries nr).1 =
      (deliverLoop entries nr watches).1 from rfl, hev]
    exact watchBlock_countP_changes entries nr w
  · intro hfc hts
    have hmem : Event.caughtCb w.cb.id ∈
        eventsFor w.cb.id (deliverLoop entries nr watches).1 := by
      rw [hev]
      exact watchBlock_caught entries nr w hfc hts
    exact (List.mem_filter.mp hmem).1

/-- Witness for amended C4: one concrete watch whose callback raises on its
change list, in a cycle with the reset flag clear. -/
theorem changelist_failure_isolated_witness :
    (deliverCycle [wCatch] [entryABc] false).2.1 = false ∧
    ∀ w ∈ [wCatch],
      ((eventsFor w.cb.id (deliverCycle [wCatch] [entryABc] false).1).countP
          Event.isChanges = if to_sub w [entryABc] = [] then 0 else 1) ∧
      (w.cb.failsOnChanges = true → to_sub w [entryABc] ≠ [] →
        Event.caughtCb w.cb.id ∈ (deliverCycle [wCatch] [entryABc] false).1) :=
  changelist_failure_isolated [wCatch] [entryABc] false (by decide) (by decide)

/-- C5 counterexample: `open_directory` on the root succeeds and returns the
directory handle `dh5`, yet `create_watch` on that very handle fails with
`EINVAL` and adds no registration — the claim says a handle produced by
`open_directory` must be accepted. -/
theorem create_watch_counterexample :
    FileSystem.open_directory failingMd rootPath = .ok dh5 ∧
    FileSystem.create_watch [] cb5 (.dir dh5) 0 true = .error .EINVAL :=
  ⟨rfl, rfl⟩

/-- Claim C5 as amended: `create_watch` succeeds exactly on `_File` handles
(the type `FileSystem.open` returns, which is how watch scopes are represented
here), appending the registration tuple and returning the stop capability, and
fails with `EINVAL` on every `_Directory` handle (the type `open_directory`
returns), adding no registration. -/
theorem create_watch_requires_file_handle (watches : List WatchReg) (cb : Callback)
    (completion_filter : Nat) (watch_tree : Bool) :
    (∀ f : _File,
        FileSystem.create_watch watches cb (.file f) completion_filter watch_tree =
          .ok (watches ++ [⟨cb, f, completion_filter, watch_tree⟩])) ∧
    (∀ d : _Directory,
        FileSystem.create_watch watches cb (.dir d) completion_filter watch_tree =
          .error .EINVAL) :=
  ⟨fun _ => rfl, fun _ => rfl⟩

/-- Claim C7 (code bug): the poller's error handler updates its state exactly
as specified — cursor dropped and reset flag set on `ListFolderContinueError`,
both kept on any other error — but on every error it then raises
`NameError: name 'time' is not defined` (the module never imports `time`), so
the error path itself propagates out and terminates the poller, where the
spec-worded handler would back off and continue the loop. -/
theorem poller_error_path_raises (e : FetchErr) (cursor : Option Nat) (nr : Bool) :
    (delta_thread_on_error e cursor nr).1 = (pollerOnErrorSpec e cursor nr).1 ∧
    (delta_thread_on_error e cursor nr).2 = .error (.nameError "time") ∧
    (pollerOnErrorSpec e cursor nr).2 = .ok () :=
  ⟨rfl, rfl, rfl⟩

end Dbfs
